import Mathlib

/-!
Verification of the key-commune proxy's control plane.

The definitions below are a shallow embedding of the TypeScript sources:
  * `src/types/database.ts` — the `ApiKey` and `DailyStats` records.
    Credential material is stored encrypted at rest, but every read path
    (`findById`, `findByHash`, cache refresh) decrypts before returning, so
    rows are modelled in their decrypted in-memory form (`key` is the raw
    material); AES round-tripping is outside the control plane.
  * `src/services/load-balancer.ts` — `LoadBalancer.selectKey` /
    `compareKeys`, with the mutable `requestCounter` passed and returned
    explicitly.
  * `src/db/repositories/keys.ts` — `KeysRepository` rows plus the
    available-keys cache with its predictive write-through updates, and
    `KeyManager` (`handleSuccess`, `handleAuthFailure`, `handleThrottle`,
    `handleResponse`, `checkPresentedKeyRateLimit`, `getSubnet`).
  * `src/db/repositories/stats.ts` — `StatsRepository` rows and today-stats
    cache (`createOrGetToday`, `incrementThrottleCount`, `incrementCallCount`).
  * `src/server.ts` — the early gates of `handleAuthenticatedRequest`
    (auth extraction, presenter rate limit, key length, proxy-host check)
    and the pool decision (transient / isolation / load-balanced).
  * `src/middleware/auth-extractor.ts` — `extractAuthKey`.
  * `src/services/key-validator.ts` — `validateKeyLength`.
  * `src/services/proxy.ts` — `matchProviderByHost`.
  * `src/services/encryption.ts` — `generateDisplayKey`.

Wall-clock reads (`Date.now()`) are passed as explicit `now` parameters
(milliseconds where the source divides by 1000, seconds after that
division, matching each call site).  `Math.random()` draws used by the
Fisher–Yates shuffle are supplied as an oracle `rand : Nat → Nat`; the
source's `Math.floor(Math.random() * (i + 1))` becomes `rand step % (i+1)`,
an arbitrary index in the same range.  SHA-256 (`hashKey`) is an opaque
pure function, supplied as a parameter where needed.
-/

/-- In-memory credential record (`ApiKey` in `src/types/database.ts`),
with `key` the decrypted material. -/
structure ApiKey where
  id : Int
  key_hash : String
  key : String
  key_display : String
  blocked_until : Option Int
  consecutive_auth_failures : Nat
  consecutive_throttles : Nat
  last_success_at : Option Int
  created_at : Int
  updated_at : Int
deriving Repr, DecidableEq

/-- Daily statistics row (`DailyStats` in `src/types/database.ts`). -/
structure DailyStats where
  id : Int
  key_id : Int
  date : String
  call_count : Nat
  throttle_count : Nat
  last_client_subnet : Option String
  created_at : Int
  updated_at : Int
deriving Repr, DecidableEq

/-- The zero-stats default used by the load balancer when
`statsMap.get(id)` is `undefined` (`|| { throttle_count: 0, call_count: 0 }`).
Only the two counter fields are ever read from it. -/
def zeroStats : DailyStats :=
  { id := 0, key_id := 0, date := "", call_count := 0, throttle_count := 0,
    last_client_subnet := none, created_at := 0, updated_at := 0 }

/-- `statsMap.get(id)` on the `Map<number, DailyStats>`: first binding wins. -/
def statsGet (statsMap : List (Int × DailyStats)) (id : Int) : Option DailyStats :=
  (statsMap.find? (fun p => p.1 == id)).map (fun p => p.2)

/-- `LoadBalancer.compareKeys` from `src/services/load-balancer.ts`:
fewer throttles wins, tie broken by fewer calls, tie broken toward `key1`. -/
def compareKeys (key1 : ApiKey) (stats1 : DailyStats) (key2 : ApiKey) (stats2 : DailyStats) :
    ApiKey :=
  if stats1.throttle_count < stats2.throttle_count then key1
  else if stats2.throttle_count < stats1.throttle_count then key2
  else if stats1.call_count < stats2.call_count then key1
  else if stats2.call_count < stats1.call_count then key2
  else key1

instance : Inhabited ApiKey :=
  ⟨{ id := 0, key_hash := "", key := "", key_display := "", blocked_until := none,
     consecutive_auth_failures := 0, consecutive_throttles := 0,
     last_success_at := none, created_at := 0, updated_at := 0 }⟩

/-- `LoadBalancer.selectKey` from `src/services/load-balancer.ts`.
The mutable `requestCounter` field is threaded explicitly: the result pairs
the selected key with the counter value after the call. -/
def selectKey (requestCounter : Nat) (availableKeys : List ApiKey)
    (statsMap : List (Int × DailyStats)) (presentedKeyHash : String) :
    Except String (ApiKey × Nat) :=
  if availableKeys.length = 0 then
    .error "No available keys to select from"
  else if availableKeys.length = 1 then
    .ok (availableKeys.headI, requestCounter)
  else
    let index1 := requestCounter % availableKeys.length
    let counter1 := requestCounter + 1
    let index2 := counter1 % availableKeys.length
    let counter2 := counter1 + 1
    let key1 := availableKeys.getD index1 default
    let key2 := availableKeys.getD index2 default
    let presentedKey := availableKeys.find? (fun k => k.key_hash == presentedKeyHash)
    let stats1 := (statsGet statsMap key1.id).getD zeroStats
    let stats2 := (statsGet statsMap key2.id).getD zeroStats
    let winner0 := compareKeys key1 stats1 key2 stats2
    let winner :=
      match presentedKey with
      | some pk =>
          let presentedStats := (statsGet statsMap pk.id).getD zeroStats
          let winnerStats := (statsGet statsMap winner0.id).getD zeroStats
          compareKeys winner0 winnerStats pk presentedStats
      | none => winner0
  .ok (winner, counter2)

/-- "Strictly better stats" in the spec's comparison rule: strictly fewer
throttles, or equal throttles and strictly fewer calls. -/
def StrictlyBetter (s1 s2 : DailyStats) : Prop :=
  s1.throttle_count < s2.throttle_count ∨
    (s1.throttle_count = s2.throttle_count ∧ s1.call_count < s2.call_count)

instance (s1 s2 : DailyStats) : Decidable (StrictlyBetter s1 s2) := by
  unfold StrictlyBetter; infer_instance

/-- The winner described by the spec sentence for claim C1, written from the
spec's words: candidates at positions `counter % n` and `(counter+1) % n`;
fewer throttles wins, tie broken by fewer calls, tie broken in favor of C1;
the presenter (when its fingerprint occurs in the sequence) displaces the
running winner only when strictly better. -/
def specSelectWinner (counter : Nat) (keys : List ApiKey)
    (statsMap : List (Int × DailyStats)) (presentedKeyHash : String) : ApiKey :=
  let n := keys.length
  let c1 := keys.getD (counter % n) default
  let c2 := keys.getD ((counter + 1) % n) default
  let st := fun (k : ApiKey) => (statsGet statsMap k.id).getD zeroStats
  let w0 := if StrictlyBetter (st c2) (st c1) then c2 else c1
  match keys.find? (fun k => k.key_hash == presentedKeyHash) with
  | some pk => if StrictlyBetter (st pk) (st w0) then pk else w0
  | none => w0

/-- `compareKeys` returns `key2` exactly when `stats2` is strictly better. -/
theorem compareKeys_eq_ite (key1 : ApiKey) (stats1 : DailyStats)
    (key2 : ApiKey) (stats2 : DailyStats) :
    compareKeys key1 stats1 key2 stats2 =
      if StrictlyBetter stats2 stats1 then key2 else key1 := by
  unfold compareKeys StrictlyBetter
  split_ifs <;> first | rfl | omega

/-- JavaScript `s.split(sep)` for a single-character separator, over the
character list: every occurrence of `sep` ends a field, and a trailing
separator yields a trailing empty field (so `"".split('.') = [""]`). -/
def splitOnCharAux (sep : Char) : List Char → List Char → List String
  | [], acc => [String.mk acc.reverse]
  | c :: cs, acc =>
      if c = sep then String.mk acc.reverse :: splitOnCharAux sep cs []
      else splitOnCharAux sep cs (c :: acc)

/-- JavaScript `s.split(sep)` for a single-character separator. -/
def splitOnChar (sep : Char) (s : String) : List String :=
  splitOnCharAux sep s.toList []

/-- `KeyManager.getSubnet` from `src/services/key-manager.ts`:
`ipAddress.split('.')`; when exactly four parts, rebuild the first three with
a `.0/24` suffix, else return the input as-is. -/
def getSubnet (ipAddress : String) : String :=
  let parts := splitOnChar '.' ipAddress
  if parts.length = 4 then
    parts.getD 0 "" ++ "." ++ parts.getD 1 "" ++ "." ++ parts.getD 2 "" ++ ".0/24"
  else
    ipAddress

/-- An IPv4 dotted quad in the sense of the spec's "a.b.c.d": four
dot-separated components, each a nonempty digit string with value ≤ 255. -/
def SpecIsIPv4 (s : String) : Prop :=
  let parts := splitOnChar '.' s
  parts.length = 4 ∧
    ∀ p ∈ parts, p ≠ "" ∧ (∀ c ∈ p.toList, c.isDigit) ∧ p.toNat! ≤ 255

instance (s : String) : Decidable (SpecIsIPv4 s) := by
  unfold SpecIsIPv4; infer_instance

/-- A template credential record used to build concrete test fixtures. -/
def mkKey (i : Int) (h : String) : ApiKey :=
  { id := i, key_hash := h, key := "material-" ++ h, key_display := h ++ "..",
    blocked_until := none, consecutive_auth_failures := 0, consecutive_throttles := 0,
    last_success_at := none, created_at := 0, updated_at := 0 }

/-- A daily-stats fixture with the given key id, call count and throttle count. -/
def mkStats (kid : Int) (calls throttles : Nat) : DailyStats :=
  { id := kid, key_id := kid, date := "2026-01-01", call_count := calls,
    throttle_count := throttles, last_client_subnet := none,
    created_at := 0, updated_at := 0 }

/-- C1.  Load-balancer selection: with an empty sequence `selectKey` fails with
the no-available error; with a singleton it returns that element with the
counter unchanged; otherwise it takes candidates C1 and C2 at positions
`counter % n` and `(counter+1) % n`, advances the counter by two, and returns
the winner under the rule "fewer throttles wins, tie broken by fewer calls,
tie broken in favor of C1", with the presenter (when its fingerprint occurs in
the sequence) displacing the running winner only when strictly better, so tie
priority is C1 > C2 > presenter — as captured by `specSelectWinner`, written
from the spec's words. -/
theorem C1_loadBalancer_selectKey (c : Nat) (keys : List ApiKey)
    (m : List (Int × DailyStats)) (h : String) :
    (keys.length = 0 → selectKey c keys m h = .error "No available keys to select from") ∧
    (∀ k, keys = [k] → selectKey c keys m h = .ok (k, c)) ∧
    (2 ≤ keys.length → selectKey c keys m h = .ok (specSelectWinner c keys m h, c + 2)) := by
  refine ⟨?_, ?_, ?_⟩
  · intro h0
    unfold selectKey
    simp [h0]
  · intro k hk
    subst hk
    unfold selectKey
    simp
  · intro h2
    have h0 : ¬ keys.length = 0 := by omega
    have h1 : ¬ keys.length = 1 := by omega
    unfold selectKey specSelectWinner
    simp only [if_neg h0, if_neg h1, compareKeys_eq_ite]

/-- Witness for C1 at a concrete input: two keys, the second has a throttle
today, the presenter's fingerprint matches the second; candidate C1 (index 0)
wins and the counter advances from 0 to 2. -/
theorem C1_loadBalancer_selectKey_witness :
    selectKey 0 [mkKey 1 "h1", mkKey 2 "h2"] [(2, mkStats 2 0 1)] "h2"
      = .ok (mkKey 1 "h1", 2) := by
  rw [(C1_loadBalancer_selectKey 0 [mkKey 1 "h1", mkKey 2 "h2"]
        [(2, mkStats 2 0 1)] "h2").2.2 (by decide)]
  rfl

/-- C9 counterexample: `"not.an.ip.addr"` is not an IPv4 address, yet
`getSubnet` does not return it unchanged — it rewrites any string with
exactly four dot-separated parts, refuting "for anything else (IPv6 or any
non-IPv4 input) returns the input string unchanged". -/
theorem C9_getSubnet_counterexample :
    ¬ SpecIsIPv4 "not.an.ip.addr" ∧
      getSubnet "not.an.ip.addr" = "not.an.ip.0/24" ∧
      getSubnet "not.an.ip.addr" ≠ "not.an.ip.addr" := by
  refine ⟨by decide, by rfl, by decide⟩

/-- C9 (amended).  `getSubnet` returns `a.b.c.0/24` for every input whose
dot-split has exactly four parts — in particular for every IPv4 address
`a.b.c.d` — and returns the input unchanged exactly when the dot-split does
not have four parts. -/
theorem C9_getSubnet_amended (s : String) :
    ((splitOnChar '.' s).length = 4 →
      getSubnet s = (splitOnChar '.' s).getD 0 "" ++ "." ++ (splitOnChar '.' s).getD 1 ""
        ++ "." ++ (splitOnChar '.' s).getD 2 "" ++ ".0/24") ∧
    ((splitOnChar '.' s).length ≠ 4 → getSubnet s = s) := by
  constructor
  · intro h4
    unfold getSubnet
    simp [h4]
  · intro h4
    unfold getSubnet
    simp [h4]

/-- Witness for C9 (amended) at concrete inputs: a genuine IPv4 address is
rewritten to its /24 subnet, and an IPv6 address is returned unchanged. -/
theorem C9_getSubnet_amended_witness :
    getSubnet "192.168.7.33" = "192.168.7.0/24" ∧ getSubnet "fe80::1" = "fe80::1" := by
  constructor
  · rw [(C9_getSubnet_amended "192.168.7.33").1 (by decide)]
    decide
  · exact (C9_getSubnet_amended "fe80::1").2 (by decide)


/-- Mutate the first element satisfying `p` in place (the JS pattern
`getCachedKeyEntry` / `getCacheEntry` followed by a field assignment on the
returned object). -/
def updateFirst (p : α → Bool) (f : α → α) : List α → List α
  | [] => []
  | x :: xs => if p x then f x :: xs else x :: updateFirst p f xs

/-- One Fisher–Yates step: `[array[i], array[j]] = [array[j], array[i]]`.
Out-of-range indices leave the list unchanged (they do not occur in the
shuffle loop). -/
def swapIdx (l : List α) (i j : Nat) : List α :=
  match l[i]?, l[j]? with
  | some a, some b => (l.set i b).set j a
  | _, _ => l

/-- The loop of `shuffleArray` in `src/db/repositories/keys.ts`, from
`i = array.length - 1` down to `i = 1`; `Math.floor(Math.random() * (i + 1))`
is the oracle draw `rand i % (i + 1)`. -/
def fyLoop (rand : Nat → Nat) : List α → Nat → List α
  | l, 0 => l
  | l, i + 1 => fyLoop rand (swapIdx l (i + 1) (rand (i + 1) % (i + 2))) i

/-- `KeysRepository.shuffleArray` (Fisher–Yates), with randomness supplied by
the oracle `rand`. -/
def shuffleArray (rand : Nat → Nat) (l : List α) : List α :=
  fyLoop rand l (l.length - 1)

theorem mem_updateFirst {p : α → Bool} {f : α → α} {l : List α} {x : α}
    (hx : x ∈ updateFirst p f l) : x ∈ l ∨ ∃ y ∈ l, p y ∧ x = f y := by
  induction l with
  | nil => simp [updateFirst] at hx
  | cons a as ih =>
      unfold updateFirst at hx
      by_cases hp : p a
      · rw [if_pos hp] at hx
        rcases List.mem_cons.mp hx with h | h
        · exact Or.inr ⟨a, List.mem_cons_self a as, hp, h⟩
        · exact Or.inl (List.mem_cons_of_mem a h)
      · rw [if_neg hp] at hx
        rcases List.mem_cons.mp hx with h | h
        · exact Or.inl (h ▸ List.mem_cons_self a as)
        · rcases ih h with h' | ⟨y, hy, hpy, hxy⟩
          · exact Or.inl (List.mem_cons_of_mem a h')
          · exact Or.inr ⟨y, List.mem_cons_of_mem a hy, hpy, hxy⟩

theorem mem_swapIdx {l : List α} {i j : Nat} {x : α} :
    x ∈ swapIdx l i j ↔ x ∈ l := by
  unfold swapIdx
  cases hi : l[i]? with
  | none => rfl
  | some a =>
    cases hj : l[j]? with
    | none => rfl
    | some b =>
      obtain ⟨hilt, hia⟩ := List.getElem?_eq_some.mp hi
      obtain ⟨hjlt, hjb⟩ := List.getElem?_eq_some.mp hj
      constructor
      · intro hx
        rcases List.mem_or_eq_of_mem_set hx with hx' | rfl
        · rcases List.mem_or_eq_of_mem_set hx' with hx'' | rfl
          · exact hx''
          · exact hjb ▸ List.getElem_mem hjlt
        · exact hia ▸ List.getElem_mem hilt
      · intro hx
        rcases (List.mem_iff_getElem?).mp hx with ⟨m, hm⟩
        by_cases hmi : m = i
        · refine (List.mem_iff_getElem?).mpr ⟨j, ?_⟩
          rw [List.getElem?_set, if_pos rfl, if_pos (by simpa using hjlt)]
          rw [hmi, hi] at hm
          exact hm
        · by_cases hmj : m = j
          · refine (List.mem_iff_getElem?).mpr ⟨i, ?_⟩
            rw [List.getElem?_set, if_neg (by omega), List.getElem?_set,
              if_pos rfl, if_pos hilt]
            rw [hmj, hj] at hm
            exact hm
          · refine (List.mem_iff_getElem?).mpr ⟨m, ?_⟩
            rw [List.getElem?_set, if_neg (by omega), List.getElem?_set,
              if_neg (by omega)]
            exact hm

theorem mem_fyLoop {rand : Nat → Nat} {l : List α} {n : Nat} {x : α} :
    x ∈ fyLoop rand l n ↔ x ∈ l := by
  induction n generalizing l with
  | zero => exact Iff.rfl
  | succ i ih => exact (ih).trans mem_swapIdx

theorem mem_shuffleArray {rand : Nat → Nat} {l : List α} {x : α} :
    x ∈ shuffleArray rand l ↔ x ∈ l :=
  mem_fyLoop

/-- The availability condition used by the write-through paths:
`blocked_until === null || blocked_until <= now` (epoch seconds). -/
def availCond (bu : Option Int) (now : Int) : Bool :=
  match bu with
  | none => true
  | some b => b ≤ now

/-- State of `KeysRepository` (`src/db/repositories/keys.ts`): the `api_keys`
rows in decrypted in-memory form, the `availableKeysCache` contents (`none`
when the cache is uninitialized; its timestamp is read only by the refresh
paths, which are not modelled here), and the next AUTOINCREMENT row id. -/
structure RepoState where
  rows : List ApiKey
  cache : Option (List ApiKey)
  nextId : Int
deriving Repr, DecidableEq

namespace KeysRepository

/-- `findById` / `findByHash`-style row lookup. -/
def findRow (st : RepoState) (id : Int) : Option ApiKey :=
  st.rows.find? (fun k => k.id == id)

/-- `KeysRepository.findByHash`. -/
def findByHash (st : RepoState) (keyHash : String) : Option ApiKey :=
  st.rows.find? (fun k => k.key_hash == keyHash)

/-- `KeysRepository.count`: `SELECT COUNT(*) FROM api_keys`. -/
def count (st : RepoState) : Nat :=
  st.rows.length

/-- `KeysRepository.create`: INSERT the new row (AUTOINCREMENT id, schema
defaults for the unset columns: `blocked_until` NULL, counters 0,
`last_success_at` NULL, timestamps `unixepoch()`), re-read it by
`lastInsertRowid`, and — when the cache exists and the new row is available —
push it into the cache and re-shuffle.  Returns the new row. -/
def create (keyHash rawKey keyDisplay : String) (now : Int) (rand : Nat → Nat)
    (st : RepoState) : ApiKey × RepoState :=
  let newKey : ApiKey :=
    { id := st.nextId, key_hash := keyHash, key := rawKey, key_display := keyDisplay,
      blocked_until := none, consecutive_auth_failures := 0, consecutive_throttles := 0,
      last_success_at := none, created_at := now, updated_at := now }
  let cache :=
    match st.cache with
    | some ks =>
        if availCond newKey.blocked_until now then some (shuffleArray rand (ks ++ [newKey]))
        else some ks
    | none => none
  (newKey, { rows := st.rows ++ [newKey], cache := cache, nextId := st.nextId + 1 })

/-- `KeysRepository.updateBlockedUntil`: UPDATE the row, then the predictive
cache update — if the row is cached and became unavailable, filter it out;
if it stayed available, mutate the cached entry's `blocked_until` in place. -/
def updateBlockedUntil (id : Int) (blockedUntil : Option Int) (now : Int)
    (st : RepoState) : RepoState :=
  let rows := st.rows.map (fun k => if k.id == id then { k with blocked_until := blockedUntil } else k)
  let cache :=
    match st.cache with
    | none => none
    | some ks =>
        match ks.find? (fun k => k.id == id) with
        | none => some ks
        | some _ =>
            if availCond blockedUntil now then
              some (updateFirst (fun k => k.id == id)
                (fun k => { k with blocked_until := blockedUntil }) ks)
            else
              some (ks.filter (fun k => k.id != id))
  { st with rows := rows, cache := cache }

/-- `KeysRepository.incrementAuthFailures`: UPDATE … RETURNING the new
counter (the primary key `id` addresses one row; a missing row makes the JS
crash on the RETURNING result, modelled as `none`), plus the predictive
cache update of the cached entry's counter. -/
def incrementAuthFailures (id : Int) (st : RepoState) : Option (Nat × RepoState) :=
  match st.rows.find? (fun k => k.id == id) with
  | none => none
  | some r =>
      let n := r.consecutive_auth_failures + 1
      let rows := st.rows.map (fun k =>
        if k.id == id then { k with consecutive_auth_failures := k.consecutive_auth_failures + 1 } else k)
      let cache := st.cache.map (updateFirst (fun k => k.id == id)
        (fun k => { k with consecutive_auth_failures := n }))
      some (n, { st with rows := rows, cache := cache })

/-- `KeysRepository.incrementThrottles`, same shape as
`incrementAuthFailures`. -/
def incrementThrottles (id : Int) (st : RepoState) : Option (Nat × RepoState) :=
  match st.rows.find? (fun k => k.id == id) with
  | none => none
  | some r =>
      let n := r.consecutive_throttles + 1
      let rows := st.rows.map (fun k =>
        if k.id == id then { k with consecutive_throttles := k.consecutive_throttles + 1 } else k)
      let cache := st.cache.map (updateFirst (fun k => k.id == id)
        (fun k => { k with consecutive_throttles := n }))
      some (n, { st with rows := rows, cache := cache })

/-- `KeysRepository.resetCounters`: zero both counters, clear
`blocked_until`, set `last_success_at = now`; the predictive cache update
touches the three lifecycle fields of the cached entry (not
`last_success_at`). -/
def resetCounters (id : Int) (now : Int) (st : RepoState) : RepoState :=
  let rows := st.rows.map (fun k =>
    if k.id == id then
      { k with consecutive_auth_failures := 0, consecutive_throttles := 0,
               blocked_until := none, last_success_at := some now }
    else k)
  let cache := st.cache.map (updateFirst (fun k => k.id == id)
    (fun k => { k with consecutive_auth_failures := 0, consecutive_throttles := 0,
                       blocked_until := none }))
  { st with rows := rows, cache := cache }

/-- `KeysRepository.delete`: DELETE the row and filter it out of the cache. -/
def deleteKey (id : Int) (st : RepoState) : RepoState :=
  { st with rows := st.rows.filter (fun k => k.id != id),
            cache := st.cache.map (fun ks => ks.filter (fun k => k.id != id)) }

end KeysRepository

/-- State of `StatsRepository` (`src/db/repositories/stats.ts`): the
`daily_stats` rows, the `todayStatsCache` contents with its civil date
(timestamp again only read by refresh), and the next AUTOINCREMENT row id. -/
structure StatsState where
  rows : List DailyStats
  cache : Option (List DailyStats × String)
  nextId : Int
deriving Repr, DecidableEq

namespace StatsRepository

/-- `StatsRepository.findTodayByKeyId`. -/
def findTodayByKeyId (keyId : Int) (today : String) (st : StatsState) : Option DailyStats :=
  st.rows.find? (fun r => r.key_id == keyId && r.date == today)

/-- `StatsRepository.createOrGetToday`: return the existing `(key_id, today)`
row or INSERT a fresh one with zero counters (schema defaults for the other
columns) and return it. -/
def createOrGetToday (keyId : Int) (today : String) (now : Int) (st : StatsState) :
    DailyStats × StatsState :=
  match findTodayByKeyId keyId today st with
  | some stats => (stats, st)
  | none =>
      let fresh : DailyStats :=
        { id := st.nextId, key_id := keyId, date := today, call_count := 0,
          throttle_count := 0, last_client_subnet := none, created_at := now,
          updated_at := now }
      (fresh, { rows := st.rows ++ [fresh], cache := st.cache, nextId := st.nextId + 1 })

/-- `StatsRepository.incrementThrottleCount`: `createOrGetToday`, UPDATE the
row addressed by its primary key, RETURNING the new count (primary-key
uniqueness: the returned value is the fetched row's count plus one), then the
predictive update of the today-cache entry when the cache date is today. -/
def incrementThrottleCount (keyId : Int) (today : String) (now : Int)
    (st : StatsState) : StatsState :=
  let res := createOrGetToday keyId today now st
  let stats := res.1
  let st1 := res.2
  let n := stats.throttle_count + 1
  let rows := st1.rows.map (fun r =>
    if r.id == stats.id then { r with throttle_count := r.throttle_count + 1 } else r)
  let cache :=
    match st1.cache with
    | none => none
    | some (m, d) =>
        if d == today then
          some (updateFirst (fun r => r.key_id == keyId)
            (fun r => { r with throttle_count := n }) m, d)
        else some (m, d)
  { st1 with rows := rows, cache := cache }

/-- `StatsRepository.incrementCallCount`: same shape, bumping `call_count`
and recording the client subnet. -/
def incrementCallCount (keyId : Int) (clientSubnet : String) (today : String)
    (now : Int) (st : StatsState) : StatsState :=
  let res := createOrGetToday keyId today now st
  let stats := res.1
  let st1 := res.2
  let n := stats.call_count + 1
  let rows := st1.rows.map (fun r =>
    if r.id == stats.id then
      { r with call_count := r.call_count + 1, last_client_subnet := some clientSubnet }
    else r)
  let cache :=
    match st1.cache with
    | none => none
    | some (m, d) =>
        if d == today then
          some (updateFirst (fun r => r.key_id == keyId)
            (fun r => { r with call_count := n, last_client_subnet := some clientSubnet }) m, d)
        else some (m, d)
  { st1 with rows := rows, cache := cache }

end StatsRepository

/-- `BlockingConfig` (`src/types/config.ts`), the fields read by
`KeyManager`. -/
structure BlockingConfig where
  presented_key_rate_limit_seconds : Nat
  auth_failure_block_minutes : Nat
  auth_failure_delete_threshold : Nat
  throttle_backoff_base_minutes : Nat
  throttle_delete_threshold : Nat
deriving Repr, DecidableEq

/-- `ResponseHandlerResult.action` values. -/
inductive HandlerAction where
  | success
  | blocked
  | deleted
  | proxied
deriving Repr, DecidableEq

/-- `ResponseHandlerResult` from `src/services/key-manager.ts`. -/
structure ResponseHandlerResult where
  action : HandlerAction
  message : String
deriving Repr, DecidableEq

/-- The database-backed state the `KeyManager` mutates: key rows + key cache,
stats rows + stats cache. -/
structure SysState where
  keys : RepoState
  stats : StatsState
deriving Repr, DecidableEq

namespace KeyManager

/-- `KeyManager.handleSuccess`: on a transient key (`id === -1`), enroll it
when `count() < maxKeys` (else report `proxied`); then `resetCounters` on the
(possibly fresh) row. -/
def handleSuccess (maxKeys : Nat) (key : ApiKey) (now : Int) (rand : Nat → Nat)
    (st : SysState) : ResponseHandlerResult × SysState :=
  if key.id == -1 then
    if KeysRepository.count st.keys ≥ maxKeys then
      ({ action := .proxied,
         message := "Max keys limit reached (" ++ toString maxKeys
           ++ ") - key not added to pool" }, st)
    else
      let res := KeysRepository.create key.key_hash key.key key.key_display now rand st.keys
      let newKey := res.1
      let ks1 := res.2
      let ks2 := KeysRepository.resetCounters newKey.id now ks1
      ({ action := .success,
         message := "New key created and added to pool - all counters cleared" },
       { st with keys := ks2 })
  else
    let ks := KeysRepository.resetCounters key.id now st.keys
    ({ action := .success,
       message := "Key reset - all counters cleared and unblocked" },
     { st with keys := ks })

/-- `KeyManager.handleAuthFailure`: untracked keys are a no-op; otherwise
increment the auth-failure counter, delete at the threshold, else block for
`auth_failure_block_minutes`. -/
def handleAuthFailure (cfg : BlockingConfig) (key : ApiKey) (now : Int)
    (st : SysState) : Option (ResponseHandlerResult × SysState) :=
  if key.id == -1 then
    some ({ action := .proxied,
            message := "Auth failure for untracked key - no action taken" }, st)
  else
    match KeysRepository.incrementAuthFailures key.id st.keys with
    | none => none
    | some (authFailures, ks1) =>
        if authFailures ≥ cfg.auth_failure_delete_threshold then
          some ({ action := .deleted,
                  message := "Key deleted - " ++ toString cfg.auth_failure_delete_threshold
                    ++ " consecutive auth failures" },
                { st with keys := KeysRepository.deleteKey key.id ks1 })
        else
          let blockedUntil := now + (cfg.auth_failure_block_minutes : Int) * 60
          some ({ action := .blocked,
                  message := "Key blocked for " ++ toString cfg.auth_failure_block_minutes
                    ++ " minutes - auth failure " ++ toString authFailures ++ "/"
                    ++ toString cfg.auth_failure_delete_threshold },
                { st with keys := KeysRepository.updateBlockedUntil key.id (some blockedUntil) now ks1 })

/-- `KeyManager.handleThrottle`: untracked keys are a no-op; otherwise
increment the consecutive-throttle counter and today's throttle count, delete
at the threshold, else block for `2^(n-1) * throttle_backoff_base_minutes`
minutes. -/
def handleThrottle (cfg : BlockingConfig) (key : ApiKey) (now : Int)
    (today : String) (st : SysState) : Option (ResponseHandlerResult × SysState) :=
  if key.id == -1 then
    some ({ action := .proxied,
            message := "Throttle for untracked key - no action taken" }, st)
  else
    match KeysRepository.incrementThrottles key.id st.keys with
    | none => none
    | some (throttles, ks1) =>
        let stats1 := StatsRepository.incrementThrottleCount key.id today now st.stats
        if throttles ≥ cfg.throttle_delete_threshold then
          some ({ action := .deleted,
                  message := "Key deleted - " ++ toString cfg.throttle_delete_threshold
                    ++ " consecutive throttles" },
                { keys := KeysRepository.deleteKey key.id ks1, stats := stats1 })
        else
          let backoffMinutes := 2 ^ (throttles - 1) * cfg.throttle_backoff_base_minutes
          let blockedUntil := now + (backoffMinutes : Int) * 60
          some ({ action := .blocked,
                  message := "Key blocked for " ++ toString backoffMinutes
                    ++ " minutes - throttle " ++ toString throttles ++ "/"
                    ++ toString cfg.throttle_delete_threshold },
                { keys := KeysRepository.updateBlockedUntil key.id (some blockedUntil) now ks1,
                  stats := stats1 })

/-- `KeyManager.handleResponse`: dispatch on the upstream status code. -/
def handleResponse (cfg : BlockingConfig) (maxKeys : Nat) (key : ApiKey)
    (statusCode : Nat) (now : Int) (today : String) (rand : Nat → Nat)
    (st : SysState) : Option (ResponseHandlerResult × SysState) :=
  if 200 ≤ statusCode ∧ statusCode < 300 then
    some (handleSuccess maxKeys key now rand st)
  else if statusCode == 401 then
    handleAuthFailure cfg key now st
  else if statusCode == 429 then
    handleThrottle cfg key now today st
  else
    some ({ action := .proxied,
            message := "Status " ++ toString statusCode ++ " - no special handling" }, st)

end KeyManager

/-- A keyed UPDATE (`map` with an `if` on the row predicate) commutes with
`find?` for the same predicate, when the update preserves the predicate. -/
theorem find?_map_ite {α : Type} (l : List α) (p : α → Bool) (f : α → α)
    (hf : ∀ k, p (f k) = p k) :
    (l.map (fun k => if p k then f k else k)).find? p = (l.find? p).map f := by
  induction l with
  | nil => rfl
  | cons a as ih =>
      cases hp : p a with
      | true =>
          rw [List.map_cons, if_pos hp, List.find?_cons_of_pos _ (by rw [hf a]; exact hp),
            List.find?_cons_of_pos _ hp]
          rfl
      | false =>
          rw [List.map_cons, if_neg (by simp [hp]), List.find?_cons_of_neg _ (by simp [hf a, hp]),
            List.find?_cons_of_neg _ (by simp [hp])]
          exact ih

/-- Rows filtered out by id are no longer found by id. -/
theorem find?_filter_out {α : Type} (l : List α) (p : α → Bool) :
    (l.filter (fun k => !(p k))).find? p = none := by
  rw [List.find?_eq_none]
  intro x hx
  have h := (List.mem_filter.mp hx).2
  simp at h
  simp [h]

/-- C5.  Reset completeness: `handleResponse` with any 2xx status on a
pool-resident credential (id ≥ 0, with a stored row `r`) zeroes both
consecutive counters, clears the block deadline, sets the last-success
timestamp to now, and leaves the statistics store untouched. -/
theorem C5_handleResponse_2xx_resets (cfg : BlockingConfig) (maxKeys : Nat)
    (key : ApiKey) (s : Nat) (now : Int) (today : String) (rand : Nat → Nat)
    (st : SysState) (r : ApiKey)
    (h2xx : 200 ≤ s ∧ s < 300) (hid : 0 ≤ key.id)
    (hr : KeysRepository.findRow st.keys key.id = some r) :
    ∃ st', KeyManager.handleResponse cfg maxKeys key s now today rand st
        = some ({ action := .success,
                  message := "Key reset - all counters cleared and unblocked" }, st') ∧
      KeysRepository.findRow st'.keys key.id
        = some { r with consecutive_auth_failures := 0, consecutive_throttles := 0,
                        blocked_until := none, last_success_at := some now } ∧
      st'.stats = st.stats := by
  have hne : (key.id == (-1 : Int)) = false := by
    simp only [beq_eq_false_iff_ne, ne_eq]
    omega
  unfold KeyManager.handleResponse KeyManager.handleSuccess
  rw [if_pos h2xx, hne]
  simp only [Bool.false_eq_true, if_false]
  refine ⟨_, rfl, ?_, rfl⟩
  show KeysRepository.findRow (KeysRepository.resetCounters key.id now st.keys) key.id = _
  unfold KeysRepository.findRow at hr ⊢
  unfold KeysRepository.resetCounters
  simp only
  rw [find?_map_ite st.keys.rows (fun k => k.id == key.id)
    (fun k => { k with consecutive_auth_failures := 0, consecutive_throttles := 0,
                       blocked_until := none, last_success_at := some now })
    (fun k => rfl), hr]
  rfl

/-- A map that preserves a predicate's value commutes with `find?`. -/
theorem find?_map_pres {α : Type} (l : List α) (p : α → Bool) (g : α → α)
    (hp : ∀ x, p (g x) = p x) :
    (l.map g).find? p = (l.find? p).map g := by
  rw [List.find?_map]
  have h : p ∘ g = p := funext hp
  rw [h]

/-- After `deleteKey id`, no row with that id is found. -/
theorem findRow_deleteKey (st : RepoState) (id : Int) :
    KeysRepository.findRow (KeysRepository.deleteKey id st) id = none := by
  unfold KeysRepository.findRow KeysRepository.deleteKey
  simp only
  rw [List.find?_eq_none]
  intro x hx
  have h := (List.mem_filter.mp hx).2
  simp only [bne_iff_ne, ne_eq] at h
  simp [h]

/-- `updateBlockedUntil` rewrites the found row's deadline. -/
theorem findRow_updateBlockedUntil (st : RepoState) (id : Int) (bu : Option Int) (now : Int) :
    KeysRepository.findRow (KeysRepository.updateBlockedUntil id bu now st) id
      = (KeysRepository.findRow st id).map (fun k => { k with blocked_until := bu }) := by
  unfold KeysRepository.findRow KeysRepository.updateBlockedUntil
  simp only
  exact find?_map_ite _ _ _ (fun k => rfl)

/-- `incrementAuthFailures` on a present row returns its counter plus one and
stores that value on the row. -/
theorem incrementAuthFailures_found (st : RepoState) (id : Int) (r : ApiKey)
    (hr : KeysRepository.findRow st id = some r) :
    ∃ st', KeysRepository.incrementAuthFailures id st
        = some (r.consecutive_auth_failures + 1, st') ∧
      KeysRepository.findRow st' id
        = some { r with consecutive_auth_failures := r.consecutive_auth_failures + 1 } := by
  unfold KeysRepository.findRow at hr
  unfold KeysRepository.incrementAuthFailures
  rw [hr]
  refine ⟨_, rfl, ?_⟩
  unfold KeysRepository.findRow
  simp only
  rw [find?_map_ite st.rows (fun k => k.id == id)
    (fun k => { k with consecutive_auth_failures := k.consecutive_auth_failures + 1 })
    (fun k => rfl), hr]
  rfl

/-- `incrementThrottles` on a present row returns its counter plus one and
stores that value on the row. -/
theorem incrementThrottles_found (st : RepoState) (id : Int) (r : ApiKey)
    (hr : KeysRepository.findRow st id = some r) :
    ∃ st', KeysRepository.incrementThrottles id st
        = some (r.consecutive_throttles + 1, st') ∧
      KeysRepository.findRow st' id
        = some { r with consecutive_throttles := r.consecutive_throttles + 1 } := by
  unfold KeysRepository.findRow at hr
  unfold KeysRepository.incrementThrottles
  rw [hr]
  refine ⟨_, rfl, ?_⟩
  unfold KeysRepository.findRow
  simp only
  rw [find?_map_ite st.rows (fun k => k.id == id)
    (fun k => { k with consecutive_throttles := k.consecutive_throttles + 1 })
    (fun k => rfl), hr]
  rfl

/-- C4.  Auth-failure delete threshold: a 401 on a pool-resident credential
(id ≥ 0, stored row `r`) increments the consecutive-auth-failure counter to
`n = r.consecutive_auth_failures + 1`; if `n` reaches the auth-delete
threshold the row is deleted from the store, and for any smaller `n` it is
not deleted but gets block deadline `now + auth_failure_block_minutes`
(in seconds, minutes × 60). -/
theorem C4_handleResponse_401_threshold (cfg : BlockingConfig) (maxKeys : Nat)
    (key : ApiKey) (now : Int) (today : String) (rand : Nat → Nat)
    (st : SysState) (r : ApiKey)
    (hid : 0 ≤ key.id)
    (hr : KeysRepository.findRow st.keys key.id = some r) :
    (r.consecutive_auth_failures + 1 ≥ cfg.auth_failure_delete_threshold →
      ∃ st', KeyManager.handleResponse cfg maxKeys key 401 now today rand st
          = some ({ action := .deleted,
                    message := "Key deleted - " ++ toString cfg.auth_failure_delete_threshold
                      ++ " consecutive auth failures" }, st') ∧
        KeysRepository.findRow st'.keys key.id = none) ∧
    (r.consecutive_auth_failures + 1 < cfg.auth_failure_delete_threshold →
      ∃ st', KeyManager.handleResponse cfg maxKeys key 401 now today rand st
          = some ({ action := .blocked,
                    message := "Key blocked for " ++ toString cfg.auth_failure_block_minutes
                      ++ " minutes - auth failure "
                      ++ toString (r.consecutive_auth_failures + 1) ++ "/"
                      ++ toString cfg.auth_failure_delete_threshold }, st') ∧
        KeysRepository.findRow st'.keys key.id
          = some { r with
                   consecutive_auth_failures := r.consecutive_auth_failures + 1,
                   blocked_until :=
                     some (now + (cfg.auth_failure_block_minutes : Int) * 60) }) := by
  have hne : (key.id == (-1 : Int)) = false := by
    simp only [beq_eq_false_iff_ne, ne_eq]
    omega
  obtain ⟨st1, hinc, hfind1⟩ := incrementAuthFailures_found st.keys key.id r hr
  constructor
  · intro hth
    unfold KeyManager.handleResponse
    rw [if_neg (by omega), if_pos (show ((401 : Nat) == 401) = true from rfl)]
    unfold KeyManager.handleAuthFailure
    rw [hne]
    simp only [Bool.false_eq_true, if_false]
    rw [hinc]
    dsimp only
    rw [if_pos hth]
    exact ⟨_, rfl, findRow_deleteKey st1 key.id⟩
  · intro hth
    unfold KeyManager.handleResponse
    rw [if_neg (by omega), if_pos (show ((401 : Nat) == 401) = true from rfl)]
    unfold KeyManager.handleAuthFailure
    rw [hne]
    simp only [Bool.false_eq_true, if_false]
    rw [hinc]
    dsimp only
    rw [if_neg (by omega)]
    refine ⟨_, rfl, ?_⟩
    rw [findRow_updateBlockedUntil st1 key.id _ now, hfind1]
    rfl

/-- `incrementThrottleCount` raises today's throttle count for the key by
one (starting from zero when no row existed). -/
theorem throttleCount_incremented (keyId : Int) (today : String) (now : Int)
    (st : StatsState) :
    (StatsRepository.findTodayByKeyId keyId today
        (StatsRepository.incrementThrottleCount keyId today now st)).map
          (fun x => x.throttle_count)
      = some ((((StatsRepository.findTodayByKeyId keyId today st).map
          (fun x => x.throttle_count)).getD 0) + 1) := by
  unfold StatsRepository.incrementThrottleCount StatsRepository.createOrGetToday
  cases hfind : StatsRepository.findTodayByKeyId keyId today st with
  | some stats =>
      dsimp only
      unfold StatsRepository.findTodayByKeyId at hfind ⊢
      dsimp only
      rw [find?_map_pres _ _
        (fun (x : DailyStats) =>
          if x.id == stats.id then { x with throttle_count := x.throttle_count + 1 } else x)
        (fun (x : DailyStats) => by
          by_cases hx : (x.id == stats.id) = true <;> simp [hx]), hfind]
      simp
  | none =>
      dsimp only
      unfold StatsRepository.findTodayByKeyId at hfind ⊢
      dsimp only
      rw [find?_map_pres _ _
        (fun (x : DailyStats) =>
          if x.id == st.nextId then { x with throttle_count := x.throttle_count + 1 } else x)
        (fun (x : DailyStats) => by
          by_cases hx : (x.id == st.nextId) = true <;> simp [hx]),
        List.find?_append, hfind]
      simp

/-- C3.  Throttle backoff: a 429 on a pool-resident credential (id ≥ 0,
stored row `r`) increments its consecutive-throttle counter to
`n = r.consecutive_throttles + 1` and, when `n` is below the
throttle-delete threshold, also increments today's throttle count and sets
the block deadline to `now + 2^(n−1) × throttle_backoff_base_minutes`
minutes (so the first two consecutive 429s give deadlines `B` and `2B`
minutes from now); when `n` reaches the threshold the row is deleted. -/
theorem C3_handleResponse_429_backoff (cfg : BlockingConfig) (maxKeys : Nat)
    (key : ApiKey) (now : Int) (today : String) (rand : Nat → Nat)
    (st : SysState) (r : ApiKey)
    (hid : 0 ≤ key.id)
    (hr : KeysRepository.findRow st.keys key.id = some r) :
    (r.consecutive_throttles + 1 ≥ cfg.throttle_delete_threshold →
      ∃ st', KeyManager.handleResponse cfg maxKeys key 429 now today rand st
          = some ({ action := .deleted,
                    message := "Key deleted - " ++ toString cfg.throttle_delete_threshold
                      ++ " consecutive throttles" }, st') ∧
        KeysRepository.findRow st'.keys key.id = none) ∧
    (r.consecutive_throttles + 1 < cfg.throttle_delete_threshold →
      ∃ st', KeyManager.handleResponse cfg maxKeys key 429 now today rand st
          = some ({ action := .blocked,
                    message := "Key blocked for "
                      ++ toString (2 ^ r.consecutive_throttles * cfg.throttle_backoff_base_minutes)
                      ++ " minutes - throttle " ++ toString (r.consecutive_throttles + 1) ++ "/"
                      ++ toString cfg.throttle_delete_threshold }, st') ∧
        KeysRepository.findRow st'.keys key.id
          = some { r with
                   consecutive_throttles := r.consecutive_throttles + 1,
                   blocked_until :=
                     some (now + ((2 ^ r.consecutive_throttles
                       * cfg.throttle_backoff_base_minutes : Nat) : Int) * 60) } ∧
        (StatsRepository.findTodayByKeyId key.id today st'.stats).map
            (fun x => x.throttle_count)
          = some ((((StatsRepository.findTodayByKeyId key.id today st.stats).map
              (fun x => x.throttle_count)).getD 0) + 1)) := by
  have hne : (key.id == (-1 : Int)) = false := by
    simp only [beq_eq_false_iff_ne, ne_eq]
    omega
  obtain ⟨st1, hinc, hfind1⟩ := incrementThrottles_found st.keys key.id r hr
  constructor
  · intro hth
    unfold KeyManager.handleResponse
    rw [if_neg (by omega), if_neg (by simp), if_pos (show ((429 : Nat) == 429) = true from rfl)]
    unfold KeyManager.handleThrottle
    rw [hne]
    simp only [Bool.false_eq_true, if_false]
    rw [hinc]
    dsimp only
    rw [if_pos hth]
    exact ⟨_, rfl, findRow_deleteKey st1 key.id⟩
  · intro hth
    unfold KeyManager.handleResponse
    rw [if_neg (by omega), if_neg (by simp), if_pos (show ((429 : Nat) == 429) = true from rfl)]
    unfold KeyManager.handleThrottle
    rw [hne]
    simp only [Bool.false_eq_true, if_false]
    rw [hinc]
    dsimp only
    rw [if_neg (by omega)]
    refine ⟨_, rfl, ?_, ?_⟩
    · rw [findRow_updateBlockedUntil st1 key.id _ now, hfind1]
      rfl
    · exact throttleCount_incremented key.id today now st.stats

/-- C6.  Auto-enrollment pool cap: a 2xx on a transient credential
(`id = -1`) creates a new record carrying the presented fingerprint,
material, and display form with zero counters exactly when the current pool
size is strictly below `maxKeys` (the fresh row then gets the success-path
reset, stamping `last_success_at`); at or above capacity nothing is created
or touched — the state is returned unchanged with outcome `proxied`.
`hfresh` is the AUTOINCREMENT invariant: no existing row carries the next
row id. -/
theorem C6_handleResponse_2xx_enrollment (cfg : BlockingConfig) (maxKeys : Nat)
    (key : ApiKey) (s : Nat) (now : Int) (today : String) (rand : Nat → Nat)
    (st : SysState)
    (h2xx : 200 ≤ s ∧ s < 300) (hid : key.id = -1)
    (hfresh : ∀ k ∈ st.keys.rows, k.id ≠ st.keys.nextId) :
    (KeysRepository.count st.keys ≥ maxKeys →
      KeyManager.handleResponse cfg maxKeys key s now today rand st
        = some ({ action := .proxied,
                  message := "Max keys limit reached (" ++ toString maxKeys
                    ++ ") - key not added to pool" }, st)) ∧
    (KeysRepository.count st.keys < maxKeys →
      ∃ st', KeyManager.handleResponse cfg maxKeys key s now today rand st
          = some ({ action := .success,
                    message := "New key created and added to pool - all counters cleared" },
                  st') ∧
        KeysRepository.count st'.keys = KeysRepository.count st.keys + 1 ∧
        KeysRepository.findRow st'.keys st.keys.nextId
          = some { id := st.keys.nextId, key_hash := key.key_hash, key := key.key,
                   key_display := key.key_display, blocked_until := none,
                   consecutive_auth_failures := 0, consecutive_throttles := 0,
                   last_success_at := some now, created_at := now, updated_at := now } ∧
        st'.stats = st.stats) := by
  have heq : (key.id == (-1 : Int)) = true := by
    rw [hid]
    rfl
  constructor
  · intro hcap
    unfold KeyManager.handleResponse KeyManager.handleSuccess
    rw [if_pos h2xx, if_pos heq, if_pos hcap]
  · intro hcap
    unfold KeyManager.handleResponse KeyManager.handleSuccess
    rw [if_pos h2xx, if_pos heq, if_neg (by omega : ¬ KeysRepository.count st.keys ≥ maxKeys)]
    dsimp only
    refine ⟨_, rfl, ?_, ?_, rfl⟩
    · unfold KeysRepository.count KeysRepository.resetCounters KeysRepository.create
      simp
    · unfold KeysRepository.create
      dsimp only
      show KeysRepository.findRow _ _ = _
      unfold KeysRepository.findRow KeysRepository.resetCounters
      dsimp only
      rw [find?_map_ite _ (fun k => k.id == st.keys.nextId)
        (fun (k : ApiKey) =>
          { k with consecutive_auth_failures := 0, consecutive_throttles := 0,
                   blocked_until := none, last_success_at := some now })
        (fun k => rfl),
        List.find?_append]
      have hnone : st.keys.rows.find? (fun k => k.id == st.keys.nextId) = none := by
        rw [List.find?_eq_none]
        intro x hx
        simp only [beq_iff_eq]
        exact hfresh x hx
      rw [hnone]
      simp

/-- A concrete blocking configuration (the defaults named in the spec). -/
def cfg0 : BlockingConfig :=
  { presented_key_rate_limit_seconds := 1, auth_failure_block_minutes := 1440,
    auth_failure_delete_threshold := 3, throttle_backoff_base_minutes := 1,
    throttle_delete_threshold := 10 }

/-- A one-key repository fixture. -/
def repo0 : RepoState :=
  { rows := [mkKey 1 "h1"], cache := some [mkKey 1 "h1"], nextId := 2 }

/-- An empty statistics fixture. -/
def stats0 : StatsState :=
  { rows := [], cache := none, nextId := 1 }

/-- Combined fixture state. -/
def sys0 : SysState := { keys := repo0, stats := stats0 }

/-- Witness for C5 at a concrete input: a 204 on the stored key zeroes its
counters, clears the deadline and stamps the last success. -/
theorem C5_handleResponse_2xx_resets_witness :
    ∃ st', KeyManager.handleResponse cfg0 5 (mkKey 1 "h1") 204 100 "2026-01-01"
        (fun _ => 0) sys0
        = some ({ action := .success,
                  message := "Key reset - all counters cleared and unblocked" }, st') ∧
      KeysRepository.findRow st'.keys (mkKey 1 "h1").id
        = some { (mkKey 1 "h1") with
                 consecutive_auth_failures := 0,
                 consecutive_throttles := 0, blocked_until := none,
                 last_success_at := some 100 } ∧
      st'.stats = sys0.stats :=
  C5_handleResponse_2xx_resets cfg0 5 (mkKey 1 "h1") 204 100 "2026-01-01"
    (fun _ => 0) sys0 (mkKey 1 "h1") (by decide) (by decide) (by decide)

/-- Witness for C4 at a concrete input: the first 401 (below the threshold 3)
blocks the key for 1440 minutes with auth-failure counter 1. -/
theorem C4_handleResponse_401_threshold_witness :
    ∃ st', KeyManager.handleResponse cfg0 5 (mkKey 1 "h1") 401 100 "2026-01-01"
        (fun _ => 0) sys0
        = some ({ action := .blocked,
                  message := "Key blocked for " ++ toString cfg0.auth_failure_block_minutes
                    ++ " minutes - auth failure "
                    ++ toString ((mkKey 1 "h1").consecutive_auth_failures + 1) ++ "/"
                    ++ toString cfg0.auth_failure_delete_threshold }, st') ∧
      KeysRepository.findRow st'.keys (mkKey 1 "h1").id
        = some { (mkKey 1 "h1") with
                 consecutive_auth_failures := 1,
                 blocked_until := some (100 + (cfg0.auth_failure_block_minutes : Int) * 60) } :=
  (C4_handleResponse_401_threshold cfg0 5 (mkKey 1 "h1") 100 "2026-01-01"
    (fun _ => 0) sys0 (mkKey 1 "h1") (by decide) (by decide)).2 (by decide)

/-- Witness for C3 at a concrete input: the first 429 (below the threshold
10) blocks for `2^0 × 1 = 1` minute and raises today's throttle count to 1. -/
theorem C3_handleResponse_429_backoff_witness :
    ∃ st', KeyManager.handleResponse cfg0 5 (mkKey 1 "h1") 429 100 "2026-01-01"
        (fun _ => 0) sys0
        = some ({ action := .blocked,
                  message := "Key blocked for "
                    ++ toString (2 ^ (mkKey 1 "h1").consecutive_throttles
                      * cfg0.throttle_backoff_base_minutes)
                    ++ " minutes - throttle "
                    ++ toString ((mkKey 1 "h1").consecutive_throttles + 1) ++ "/"
                    ++ toString cfg0.throttle_delete_threshold }, st') ∧
      KeysRepository.findRow st'.keys (mkKey 1 "h1").id
        = some { (mkKey 1 "h1") with
                 consecutive_throttles := 1,
                 blocked_until := some (100 + ((2 ^ (mkKey 1 "h1").consecutive_throttles
                   * cfg0.throttle_backoff_base_minutes : Nat) : Int) * 60) } ∧
      (StatsRepository.findTodayByKeyId (mkKey 1 "h1").id "2026-01-01" st'.stats).map
          (fun x => x.throttle_count)
        = some ((((StatsRepository.findTodayByKeyId (mkKey 1 "h1").id "2026-01-01"
            sys0.stats).map (fun x => x.throttle_count)).getD 0) + 1) :=
  (C3_handleResponse_429_backoff cfg0 5 (mkKey 1 "h1") 100 "2026-01-01"
    (fun _ => 0) sys0 (mkKey 1 "h1") (by decide) (by decide)).2 (by decide)

/-- Witness for C6 at a concrete input: a 200 on a transient credential with
pool size 1 < 5 enrolls it with zero counters and a fresh last-success
stamp. -/
theorem C6_handleResponse_2xx_enrollment_witness :
    ∃ st', KeyManager.handleResponse cfg0 5 (mkKey (-1) "hP") 200 100 "2026-01-01"
        (fun _ => 0) sys0
        = some ({ action := .success,
                  message := "New key created and added to pool - all counters cleared" },
                st') ∧
      KeysRepository.count st'.keys = KeysRepository.count sys0.keys + 1 ∧
      KeysRepository.findRow st'.keys sys0.keys.nextId
        = some { id := sys0.keys.nextId, key_hash := (mkKey (-1) "hP").key_hash,
                 key := (mkKey (-1) "hP").key, key_display := (mkKey (-1) "hP").key_display,
                 blocked_until := none, consecutive_auth_failures := 0,
                 consecutive_throttles := 0, last_success_at := some 100,
                 created_at := 100, updated_at := 100 } ∧
      st'.stats = sys0.stats :=
  (C6_handleResponse_2xx_enrollment cfg0 5 (mkKey (-1) "hP") 200 100 "2026-01-01"
    (fun _ => 0) sys0 (by decide) (by decide) (by decide)).2 (by decide)

/-- The records currently in the available-keys cache (empty when the cache
is uninitialized). -/
def cacheKeys (st : RepoState) : List ApiKey :=
  st.cache.getD []

/-- Snapshot consistency at time `t`: the record's block deadline is absent
or at most `t`. -/
def DeadlineLE (t : Int) (k : ApiKey) : Prop :=
  k.blocked_until = none ∨ ∃ b, k.blocked_until = some b ∧ b ≤ t

instance (t : Int) (k : ApiKey) : Decidable (DeadlineLE t k) := by
  unfold DeadlineLE
  cases k.blocked_until <;> exact inferInstance

theorem DeadlineLE.mono {t t' : Int} (h : t ≤ t') {k : ApiKey} :
    DeadlineLE t k → DeadlineLE t' k := by
  rintro (hk | ⟨b, hb, hbt⟩)
  · exact Or.inl hk
  · exact Or.inr ⟨b, hb, le_trans hbt h⟩

/-- `availCond bu now = true` gives the deadline bound at `now`. -/
theorem deadlineLE_of_availCond {bu : Option Int} {now : Int}
    (h : availCond bu now = true) (k : ApiKey) (hk : k.blocked_until = bu) :
    DeadlineLE now k := by
  cases bu with
  | none => exact Or.inl hk
  | some b =>
      refine Or.inr ⟨b, hk, ?_⟩
      simpa [availCond] using h

/-- C7.  Hot-cache write-through invariant: starting from a snapshot whose
records all satisfy the deadline bound at some earlier time `t ≤ now`,
(a) `updateBlockedUntil` keeps every cached record's deadline absent or
≤ `now`, and with a future deadline it removes the record's id from the
snapshot eagerly; (b) `create` keeps the bound and eagerly adds the new
(unblocked) record whenever the cache exists; (c) `deleteKey` keeps the
bound and eagerly removes the id from the snapshot. -/
theorem C7_cache_write_through (st : RepoState) (t now : Int) (id : Int)
    (bu : Option Int) (rand : Nat → Nat) (keyHash rawKey keyDisplay : String)
    (hok : ∀ k ∈ cacheKeys st, DeadlineLE t k) (hmono : t ≤ now) :
    (∀ k ∈ cacheKeys (KeysRepository.updateBlockedUntil id bu now st), DeadlineLE now k) ∧
    (∀ b, bu = some b → now < b →
      ∀ k ∈ cacheKeys (KeysRepository.updateBlockedUntil id bu now st), k.id ≠ id) ∧
    (∀ k ∈ cacheKeys (KeysRepository.create keyHash rawKey keyDisplay now rand st).2,
      DeadlineLE now k) ∧
    (st.cache ≠ none →
      (KeysRepository.create keyHash rawKey keyDisplay now rand st).1
        ∈ cacheKeys (KeysRepository.create keyHash rawKey keyDisplay now rand st).2) ∧
    (∀ k ∈ cacheKeys (KeysRepository.deleteKey id st), DeadlineLE now k) ∧
    (∀ k ∈ cacheKeys (KeysRepository.deleteKey id st), k.id ≠ id) := by
  refine ⟨?_, ?_, ?_, ?_, ?_, ?_⟩
  · intro k hk
    unfold KeysRepository.updateBlockedUntil at hk
    cases hc : st.cache with
    | none =>
        rw [hc] at hk
        simp [cacheKeys] at hk
    | some ks =>
        rw [hc] at hk
        dsimp only at hk
        have hok' : ∀ x ∈ ks, DeadlineLE t x := by
          intro x hx
          exact hok x (by simp [cacheKeys, hc, hx])
        cases hf : ks.find? (fun x => x.id == id) with
        | none =>
            rw [hf] at hk
            simp only [cacheKeys, Option.getD_some] at hk
            exact (hok' k hk).mono hmono
        | some w =>
            rw [hf] at hk
            dsimp only at hk
            by_cases hav : availCond bu now = true
            · rw [if_pos hav] at hk
              simp only [cacheKeys, Option.getD_some] at hk
              rcases mem_updateFirst hk with hk' | ⟨y, hy, hpy, rfl⟩
              · exact (hok' k hk').mono hmono
              · exact deadlineLE_of_availCond hav _ rfl
            · rw [if_neg hav] at hk
              simp only [cacheKeys, Option.getD_some] at hk
              exact (hok' k (List.mem_filter.mp hk).1).mono hmono
  · intro b hbu hfut k hk
    unfold KeysRepository.updateBlockedUntil at hk
    have hav : availCond bu now = false := by
      subst hbu
      simp only [availCond, decide_eq_false_iff_not]
      omega
    cases hc : st.cache with
    | none =>
        rw [hc] at hk
        simp [cacheKeys] at hk
    | some ks =>
        rw [hc] at hk
        dsimp only at hk
        cases hf : ks.find? (fun x => x.id == id) with
        | none =>
            rw [hf] at hk
            simp only [cacheKeys, Option.getD_some] at hk
            have := List.find?_eq_none.mp hf k hk
            simpa using this
        | some w =>
            rw [hf] at hk
            dsimp only at hk
            rw [if_neg (by simp [hav])] at hk
            simp only [cacheKeys, Option.getD_some] at hk
            have := (List.mem_filter.mp hk).2
            simpa using this
  · intro k hk
    unfold KeysRepository.create at hk
    cases hc : st.cache with
    | none =>
        rw [hc] at hk
        simp [cacheKeys] at hk
    | some ks =>
        rw [hc] at hk
        dsimp only at hk
        rw [if_pos (by rfl : availCond none now = true)] at hk
        simp only [cacheKeys, Option.getD_some] at hk
        rcases List.mem_append.mp (mem_shuffleArray.mp hk) with hk' | hk'
        · exact (hok k (by simp [cacheKeys, hc, hk'])).mono hmono
        · rw [List.mem_singleton.mp hk']
          exact Or.inl rfl
  · intro hc'
    cases hc : st.cache with
    | none => exact absurd hc hc'
    | some ks =>
        unfold KeysRepository.create
        rw [hc]
        dsimp only
        rw [if_pos (by rfl : availCond none now = true)]
        simp only [cacheKeys, Option.getD_some]
        exact mem_shuffleArray.mpr (List.mem_append_right ks (List.mem_singleton_self _))
  · intro k hk
    unfold KeysRepository.deleteKey at hk
    cases hc : st.cache with
    | none =>
        rw [hc] at hk
        simp [cacheKeys] at hk
    | some ks =>
        rw [hc] at hk
        simp only [cacheKeys, Option.map_some, Option.getD_some] at hk
        exact (hok k (by simp [cacheKeys, hc, (List.mem_filter.mp hk).1])).mono hmono
  · intro k hk
    unfold KeysRepository.deleteKey at hk
    cases hc : st.cache with
    | none =>
        rw [hc] at hk
        simp [cacheKeys] at hk
    | some ks =>
        rw [hc] at hk
        simp only [cacheKeys, Option.map_some, Option.getD_some] at hk
        have := (List.mem_filter.mp hk).2
        simpa using this

/-- Witness for C7 at a concrete state: a cache holding one key with an
expired deadline (5 ≤ 10 ≤ now = 50); blocking id 1 until 90 keeps the
invariant at 50, removes id 1, creation adds the fresh key, deletion
removes id 1. -/
theorem C7_cache_write_through_witness :
    (∀ k ∈ cacheKeys (KeysRepository.updateBlockedUntil 1 (some 90) 50
        { rows := [{ (mkKey 1 "h1") with blocked_until := some 5 }],
          cache := some [{ (mkKey 1 "h1") with blocked_until := some 5 }],
          nextId := 2 }), DeadlineLE 50 k) ∧
    (∀ b, (some (90 : Int)) = some b → (50 : Int) < b →
      ∀ k ∈ cacheKeys (KeysRepository.updateBlockedUntil 1 (some 90) 50
        { rows := [{ (mkKey 1 "h1") with blocked_until := some 5 }],
          cache := some [{ (mkKey 1 "h1") with blocked_until := some 5 }],
          nextId := 2 }), k.id ≠ 1) ∧
    (∀ k ∈ cacheKeys (KeysRepository.create "h2" "raw2" "d2" 50 (fun _ => 0)
        { rows := [{ (mkKey 1 "h1") with blocked_until := some 5 }],
          cache := some [{ (mkKey 1 "h1") with blocked_until := some 5 }],
          nextId := 2 }).2, DeadlineLE 50 k) ∧
    ((({ rows := [{ (mkKey 1 "h1") with blocked_until := some 5 }],
         cache := some [{ (mkKey 1 "h1") with blocked_until := some 5 }],
         nextId := 2 } : RepoState).cache ≠ none) →
      (KeysRepository.create "h2" "raw2" "d2" 50 (fun _ => 0)
        { rows := [{ (mkKey 1 "h1") with blocked_until := some 5 }],
          cache := some [{ (mkKey 1 "h1") with blocked_until := some 5 }],
          nextId := 2 }).1
        ∈ cacheKeys (KeysRepository.create "h2" "raw2" "d2" 50 (fun _ => 0)
          { rows := [{ (mkKey 1 "h1") with blocked_until := some 5 }],
            cache := some [{ (mkKey 1 "h1") with blocked_until := some 5 }],
            nextId := 2 }).2) ∧
    (∀ k ∈ cacheKeys (KeysRepository.deleteKey 1
        { rows := [{ (mkKey 1 "h1") with blocked_until := some 5 }],
          cache := some [{ (mkKey 1 "h1") with blocked_until := some 5 }],
          nextId := 2 }), DeadlineLE 50 k) ∧
    (∀ k ∈ cacheKeys (KeysRepository.deleteKey 1
        { rows := [{ (mkKey 1 "h1") with blocked_until := some 5 }],
          cache := some [{ (mkKey 1 "h1") with blocked_until := some 5 }],
          nextId := 2 }), k.id ≠ 1) :=
  C7_cache_write_through
    { rows := [{ (mkKey 1 "h1") with blocked_until := some 5 }],
      cache := some [{ (mkKey 1 "h1") with blocked_until := some 5 }],
      nextId := 2 } 10 50 1 (some 90) (fun _ => 0) "h2" "raw2" "d2"
    (by decide) (by decide)

/-- `generateDisplayKey` from `src/services/encryption.ts`. -/
def generateDisplayKey (key : String) : String :=
  if key.length ≤ 8 then key.take (min 4 key.length) ++ ".."
  else key.take 4 ++ ".." ++ key.drop (key.length - 4)

/-- The JavaScript test `existingKey.blocked_until && existingKey.blocked_until > now`:
a `null` deadline is falsy, and so is the (never stored in practice) value 0. -/
def blockedNow (bu : Option Int) (now : Int) : Bool :=
  match bu with
  | none => false
  | some b => b != 0 && now < b

/-- Outcome of the pool-decision block: 503 when the pool is empty, else the
selected credential together with whether the load balancer ran and the load
balancer counter after the step. -/
inductive PoolDecision where
  | noKeys
  | selected (key : ApiKey) (usedLoadBalancer : Bool) (counter : Nat)
deriving Repr, DecidableEq

/-- The pool-decision block of `handleAuthenticatedRequest`
(`src/server.ts`): an unknown presenter gets a transient credential built
from the presented material (`id = -1`); a presenter whose stored record has
a future block deadline gets that record itself (isolation); otherwise the
load balancer selects over the cached snapshots (`availableKeys` and
`statsMap` stand for `getCachedAvailableKeys()` / `getCachedTodayStats()`),
with 503 on an empty snapshot.  `selectKey` cannot fail on the nonempty
snapshot; its error branch is mapped to `noKeys` for totality. -/
def poolDecision (presentedKey presentedKeyHash : String) (now : Int)
    (counter : Nat) (st : RepoState) (availableKeys : List ApiKey)
    (statsMap : List (Int × DailyStats)) : PoolDecision :=
  match KeysRepository.findByHash st presentedKeyHash with
  | none =>
      .selected
        { id := -1, key_hash := presentedKeyHash, key := presentedKey,
          key_display := generateDisplayKey presentedKey, blocked_until := none,
          consecutive_auth_failures := 0, consecutive_throttles := 0,
          last_success_at := none, created_at := now, updated_at := now }
        false counter
  | some existingKey =>
      if blockedNow existingKey.blocked_until now then
        .selected existingKey false counter
      else if availableKeys.length = 0 then
        .noKeys
      else
        match selectKey counter availableKeys statsMap presentedKeyHash with
        | .ok (k, counter2) => .selected k true counter2
        | .error _ => .noKeys

/-- C2.  Isolation mode: when the presenter's hash resolves to a stored
record whose block deadline lies strictly in the future, the pool decision
selects exactly that record, does not run the load balancer, and leaves the
load-balancer counter untouched — no other pool record can be chosen. -/
theorem C2_isolation_short_circuits_load_balancer
    (presentedKey presentedKeyHash : String) (now : Int) (counter : Nat)
    (st : RepoState) (availableKeys : List ApiKey)
    (statsMap : List (Int × DailyStats)) (k : ApiKey) (b : Int)
    (hfound : KeysRepository.findByHash st presentedKeyHash = some k)
    (hb : k.blocked_until = some b) (hfut : now < b) (hnow : 0 ≤ now) :
    poolDecision presentedKey presentedKeyHash now counter st availableKeys statsMap
      = .selected k false counter := by
  unfold poolDecision
  rw [hfound]
  dsimp only
  rw [if_pos ?_]
  rw [hb]
  unfold blockedNow
  simp only [Bool.and_eq_true, bne_iff_ne, ne_eq, decide_eq_true_eq]
  constructor
  · omega
  · exact hfut

/-- Witness for C2 at a concrete state: the presenter's record is blocked
until 90 > now = 50, so the presenter's own record is selected with the
counter unchanged, even though another pool key is available. -/
theorem C2_isolation_short_circuits_load_balancer_witness :
    poolDecision "material-h1" "h1" 50 7
      { rows := [{ (mkKey 1 "h1") with blocked_until := some 90 }, mkKey 2 "h2"],
        cache := some [mkKey 2 "h2"], nextId := 3 }
      [mkKey 2 "h2"] []
      = .selected { (mkKey 1 "h1") with blocked_until := some 90 } false 7 :=
  C2_isolation_short_circuits_load_balancer "material-h1" "h1" 50 7
    { rows := [{ (mkKey 1 "h1") with blocked_until := some 90 }, mkKey 2 "h2"],
      cache := some [mkKey 2 "h2"], nextId := 3 }
    [mkKey 2 "h2"] [] { (mkKey 1 "h1") with blocked_until := some 90 } 90
    (by decide) (by decide) (by decide) (by decide)

/-- One entry of the presenter rate-limit LRU (`lru-cache` in
`KeyManager`): the stored value (last admission time, ms) and the time the
entry's TTL clock last restarted (insertion, or any `get`, per
`updateAgeOnGet: true`). -/
structure RLEntry where
  value : Int
  ageStart : Int
deriving Repr, DecidableEq

/-- The LRU map, most-recently-used first. -/
structure RLState where
  entries : List (String × RLEntry)
deriving Repr, DecidableEq

/-- `lru-cache` `get`: a stale entry (age beyond the TTL) is dropped and
reported absent; a live hit refreshes the TTL clock and the recency
(`updateAgeOnGet: true`) but never the stored value. -/
def lruGet (fp : String) (now ttl : Int) (st : RLState) : Option Int × RLState :=
  match st.entries.find? (fun e => e.1 == fp) with
  | none => (none, st)
  | some e =>
      if now - e.2.ageStart > ttl then
        (none, ⟨st.entries.filter (fun x => x.1 != fp)⟩)
      else
        (some e.2.value,
         ⟨(fp, { value := e.2.value, ageStart := now })
           :: st.entries.filter (fun x => x.1 != fp)⟩)

/-- `lru-cache` `set`: insert at the most-recent end, replacing any previous
entry for the key, and evict from the least-recent end past `max`. -/
def lruSet (fp : String) (v : Int) (now : Int) (maxEntries : Nat) (st : RLState) :
    RLState :=
  let entries := ((fp, { value := v, ageStart := now }) : String × RLEntry)
    :: st.entries.filter (fun x => x.1 != fp)
  ⟨entries.take maxEntries⟩

/-- The stored last-admission timestamp for a fingerprint. -/
def rlValue (st : RLState) (fp : String) : Option Int :=
  (st.entries.find? (fun e => e.1 == fp)).map (fun e => e.2.value)

/-- `KeyManager.checkPresentedKeyRateLimit`: look up the presenter's last
admission time (`if (lastRequest)` — 0 is falsy); deny when less than
`presented_key_rate_limit_seconds` have elapsed, with a ⌈remaining⌉-seconds
wait hint; otherwise record `now` and allow.  TTL = 2R, capacity = maxKeys. -/
def checkPresentedKeyRateLimit (rateLimitSeconds maxKeys : Nat)
    (presentedKeyHash : String) (now : Int) (st : RLState) :
    (Bool × Option String) × RLState :=
  let ttl := (rateLimitSeconds : Int) * 1000 * 2
  let res := lruGet presentedKeyHash now ttl st
  let st1 := res.2
  match res.1 with
  | some t =>
      if t != 0 && decide (now - t < (rateLimitSeconds : Int) * 1000) then
        let waitSeconds := ((rateLimitSeconds : Int) * 1000 - (now - t) + 999) / 1000
        ((false, some ("Rate limit exceeded. Wait " ++ toString waitSeconds
          ++ " second(s) before retrying")), st1)
      else
        ((true, none), lruSet presentedKeyHash now now maxKeys st1)
  | none => ((true, none), lruSet presentedKeyHash now now maxKeys st1)

/-- Run a sequence of rate-limit checks for one fingerprint, keeping states. -/
def rlRun (rateLimitSeconds maxKeys : Nat) (fp : String) (ts : List Int)
    (st : RLState) : RLState :=
  ts.foldl (fun s u => (checkPresentedKeyRateLimit rateLimitSeconds maxKeys fp u s).2) st

/-- Every check in the sequence comes back denied. -/
def AllDenied (rateLimitSeconds maxKeys : Nat) (fp : String) :
    List Int → RLState → Prop
  | [], _ => True
  | u :: rest, st =>
      ((checkPresentedKeyRateLimit rateLimitSeconds maxKeys fp u st).1).1 = false ∧
        AllDenied rateLimitSeconds maxKeys fp rest
          (checkPresentedKeyRateLimit rateLimitSeconds maxKeys fp u st).2

/-- A denied rate-limit check leaves the stored last-admission timestamp
unchanged (denial happens only on a live hit, whose `get` refreshes the TTL
clock but not the value). -/
theorem denied_preserves_rlValue (R maxKeys : Nat) (fp : String) (now : Int)
    (st : RLState)
    (hden : ((checkPresentedKeyRateLimit R maxKeys fp now st).1).1 = false) :
    rlValue (checkPresentedKeyRateLimit R maxKeys fp now st).2 fp = rlValue st fp := by
  simp only [checkPresentedKeyRateLimit, lruGet] at hden ⊢
  cases hf : st.entries.find? (fun e => e.1 == fp) with
  | none =>
      simp only [hf] at hden
      simp at hden
  | some e =>
      simp only [hf] at hden ⊢
      by_cases hst : now - e.2.ageStart > (R : Int) * 1000 * 2
      · simp only [if_pos hst] at hden
        simp at hden
      · simp only [if_neg hst] at hden ⊢
        by_cases hc : (e.2.value != 0 && decide (now - e.2.value < (R : Int) * 1000)) = true
        · simp only [if_pos hc]
          unfold rlValue
          simp [hf]
        · simp only [if_neg hc] at hden
          simp at hden

/-- When at least `R` seconds have elapsed since the stored last admission,
the check allows (regardless of intervening TTL refreshes). -/
theorem allowed_when_elapsed (R maxKeys : Nat) (fp : String) (now : Int)
    (st : RLState) (t : Int)
    (hval : rlValue st fp = some t) (helapsed : (R : Int) * 1000 ≤ now - t) :
    ((checkPresentedKeyRateLimit R maxKeys fp now st).1).1 = true := by
  unfold rlValue at hval
  simp only [checkPresentedKeyRateLimit, lruGet]
  cases hf : st.entries.find? (fun e => e.1 == fp) with
  | none => simp [hf]
  | some e =>
      rw [hf] at hval
      simp only [hf]
      simp only [Option.map_some', Option.some_inj] at hval
      by_cases hst : now - e.2.ageStart > (R : Int) * 1000 * 2
      · simp [hst]
      · simp only [if_neg hst]
        rw [if_neg (by simp only [Bool.and_eq_true, decide_eq_true_eq, not_and, hval]
                       intro _
                       omega)]

/-- C10.  Rate-limit denial is state-preserving: (a) a denied check leaves
the presenter's stored last-admission timestamp unchanged; (b) whenever at
least `R` seconds have elapsed since the stored admission time, the check
allows; (c) hence after any sequence of denied attempts the stored timestamp
is still the original `t`, and a request at `now'` with `now' − t ≥ R`
seconds is allowed — denials never extend the deny window. -/
theorem C10_rate_limit_denial_state_preserving (R maxKeys : Nat) (fp : String)
    (st : RLState) :
    (∀ now, ((checkPresentedKeyRateLimit R maxKeys fp now st).1).1 = false →
      rlValue (checkPresentedKeyRateLimit R maxKeys fp now st).2 fp = rlValue st fp) ∧
    (∀ now t, rlValue st fp = some t → (R : Int) * 1000 ≤ now - t →
      ((checkPresentedKeyRateLimit R maxKeys fp now st).1).1 = true) ∧
    (∀ ts t, rlValue st fp = some t → AllDenied R maxKeys fp ts st →
      rlValue (rlRun R maxKeys fp ts st) fp = some t ∧
      ∀ no, (R : Int) * 1000 ≤ no - t →
        ((checkPresentedKeyRateLimit R maxKeys fp no (rlRun R maxKeys fp ts st)).1).1
          = true) := by
  refine ⟨fun now => denied_preserves_rlValue R maxKeys fp now st,
          fun now t hval h => allowed_when_elapsed R maxKeys fp now st t hval h, ?_⟩
  intro ts
  induction ts generalizing st with
  | nil =>
      intro t hval _
      exact ⟨hval, fun no hno => allowed_when_elapsed R maxKeys fp no st t hval hno⟩
  | cons u rest ih =>
      intro t hval hden
      obtain ⟨hd, hrest⟩ := hden
      have hpres := denied_preserves_rlValue R maxKeys fp u st hd
      have hval' : rlValue (checkPresentedKeyRateLimit R maxKeys fp u st).2 fp = some t :=
        hpres.trans hval
      exact ih _ t hval' hrest

/-- Witness for C10 at a concrete state (R = 1 s): a denied attempt at
1500 ms after an admission at 1000 ms leaves the stored timestamp at 1000,
and the check at 2100 ms (1100 ms elapsed) is allowed. -/
theorem C10_rate_limit_denial_state_preserving_witness :
    rlValue (rlRun 1 5 "fp" [1500] ⟨[("fp", { value := 1000, ageStart := 1000 })]⟩) "fp"
        = some 1000 ∧
    ∀ no, (1 : Int) * 1000 ≤ no - 1000 →
      ((checkPresentedKeyRateLimit 1 5 "fp" no
        (rlRun 1 5 "fp" [1500] ⟨[("fp", { value := 1000, ageStart := 1000 })]⟩)).1).1
        = true :=
  (C10_rate_limit_denial_state_preserving 1 5 "fp"
    ⟨[("fp", { value := 1000, ageStart := 1000 })]⟩).2.2 [1500] 1000
    (by decide) ⟨by decide, trivial⟩

/-- `AuthInfo` from `src/middleware/auth-extractor.ts`. -/
structure AuthInfo where
  presentedKeyHash : String
  presentedKey : String
  authHeader : String
deriving Repr, DecidableEq

/-- JavaScript `startsWith` on character lists. -/
def charListStartsWith : List Char → List Char → Bool
  | _, [] => true
  | [], _ :: _ => false
  | c :: cs, p :: ps => c == p && charListStartsWith cs ps

/-- JavaScript `endsWith` on character lists. -/
def charListEndsWith (l p : List Char) : Bool :=
  charListStartsWith l.reverse p.reverse

/-- JavaScript `toLowerCase` (character-wise). -/
def jsToLower (s : String) : String :=
  String.mk (s.toList.map Char.toLower)

/-- JavaScript `trim`: strip whitespace from both ends. -/
def jsTrim (l : List Char) : List Char :=
  ((l.dropWhile Char.isWhitespace).reverse.dropWhile Char.isWhitespace).reverse

/-- `extractAuthKey`: a missing (or empty, hence falsy) Authorization header
yields nothing; a case-insensitive `"Bearer "` prefix is stripped
(`substring(7)`) and the remainder trimmed; an empty remainder yields
nothing.  `hashKey` (SHA-256 hex) is an opaque parameter. -/
def extractAuthKey (hashKey : String → String) (authorization : Option String) :
    Option AuthInfo :=
  match authorization with
  | none => none
  | some authHeader =>
      if authHeader = "" then none
      else
        let key :=
          if charListStartsWith ((jsToLower authHeader).toList) "bearer ".toList then
            String.mk (jsTrim (authHeader.toList.drop 7))
          else authHeader
        if key = "" then none
        else some { presentedKeyHash := hashKey key, presentedKey := key,
                    authHeader := authHeader }

/-- `ValidationResult` from `src/services/key-validator.ts`. -/
structure ValidationResult where
  valid : Bool
  reason : Option String
deriving Repr, DecidableEq

/-- `KeyValidator.validateKeyLength`: reject below 16 or above 256 chars. -/
def validateKeyLength (key : String) : ValidationResult :=
  if key.length < 16 then
    { valid := false, reason := some "Key too short (minimum 16 characters)" }
  else if key.length > 256 then
    { valid := false, reason := some "Key too long (maximum 256 characters)" }
  else
    { valid := true, reason := none }

/-- Provider configuration as read by the host-matching path: the provider
name and the hostname of `base_url` as parsed by `new URL` (`none` when the
URL is invalid, making the provider skipped by the matcher). -/
structure ProviderConfig where
  name : String
  base_url_hostname : Option String
deriving Repr, DecidableEq

/-- `ProxyService.matchProviderByHost`: strip any `:port` from the host
header, lowercase it, and return the first provider whose lowercased
hostname matches exactly or as a dot-suffix. -/
def matchProviderByHost (providers : List ProviderConfig) (host : String) :
    Option ProviderConfig :=
  let cleanHost := jsToLower ((splitOnChar ':' host).getD 0 "")
  providers.find? (fun p =>
    match p.base_url_hostname with
    | none => false
    | some phRaw =>
        let providerHost := jsToLower phRaw
        cleanHost == providerHost
          || charListEndsWith cleanHost.toList ("." ++ providerHost).toList)

/-- The early-gate outcome of `handleAuthenticatedRequest`: an error
response (status, title) or the gates passed with the extracted auth info. -/
inductive GateOutcome where
  | err (status : Nat) (title : String)
  | proceed (info : AuthInfo)
deriving Repr, DecidableEq

/-- The early gates of `handleAuthenticatedRequest` (`src/server.ts`), in
source order: extract the credential (missing ⇒ 401 Unauthorized), presenter
rate limit (deny ⇒ 429 Too Many Requests), key length (invalid ⇒ 400 Bad
Request), then the trusted proxy-host check (`x-forwarded-host` present,
nonempty, and not resolving to the configured provider ⇒ 400 Bad Request).
The rate-limit LRU state is threaded alongside; the later steps (request
validation, pool decision, forwarding) lie beyond the gates modelled here. -/
def admissionGates (hashKey : String → String) (rateLimitSeconds maxKeys : Nat)
    (authorization xForwardedHost : Option String)
    (providers : List ProviderConfig) (provider : ProviderConfig)
    (now : Int) (rl : RLState) : GateOutcome × RLState :=
  match extractAuthKey hashKey authorization with
  | none => (.err 401 "Unauthorized", rl)
  | some authInfo =>
      let rlRes := checkPresentedKeyRateLimit rateLimitSeconds maxKeys
        authInfo.presentedKeyHash now rl
      if (rlRes.1).1 = false then
        (.err 429 "Too Many Requests", rlRes.2)
      else if (validateKeyLength authInfo.presentedKey).valid = false then
        (.err 400 "Bad Request", rlRes.2)
      else
        match xForwardedHost with
        | some proxyHost =>
            if proxyHost = "" then (.proceed authInfo, rlRes.2)
            else
              match matchProviderByHost providers proxyHost with
              | none => (.err 400 "Bad Request", rlRes.2)
              | some matched =>
                  if matched.name != provider.name then
                    (.err 400 "Bad Request", rlRes.2)
                  else
                    (.proceed authInfo, rlRes.2)
        | none => (.proceed authInfo, rlRes.2)

/-- C8 counterexample: a request with a mismatching trusted proxy-host
header but no Authorization header is answered 401 (credential extraction
runs first), not the 400 the claim's ordering would demand — the host check
is not step 2 of the pipeline. -/
theorem C8_hostCheck_counterexample :
    (admissionGates (fun s => s) 1 5 none (some "evil.example.com")
        [{ name := "openai", base_url_hostname := some "api.openai.com" }]
        { name := "openai", base_url_hostname := some "api.openai.com" }
        0 ⟨[]⟩).1
      = .err 401 "Unauthorized" ∧
    (admissionGates (fun s => s) 1 5 none (some "evil.example.com")
        [{ name := "openai", base_url_hostname := some "api.openai.com" }]
        { name := "openai", base_url_hostname := some "api.openai.com" }
        0 ⟨[]⟩).1
      ≠ .err 400 "Bad Request" := by
  exact ⟨rfl, by decide⟩

/-- C8 (amended).  The trusted proxy-host check runs after credential
extraction, presenter rate limiting, and credential length validation, not
before them: a missing credential yields 401 and a rate-limited presenter
429 even when the host mismatches; an invalid-length credential yields the
length 400; and the host-mismatch 400 is produced exactly when those three
gates pass and the nonempty proxy-host header fails to resolve to the
configured provider. -/
theorem C8_hostCheck_after_auth_gates (hashKey : String → String)
    (rateLimitSeconds maxKeys : Nat) (authorization xForwardedHost : Option String)
    (providers : List ProviderConfig) (provider : ProviderConfig)
    (now : Int) (rl : RLState) :
    (extractAuthKey hashKey authorization = none →
      (admissionGates hashKey rateLimitSeconds maxKeys authorization xForwardedHost
        providers provider now rl).1 = .err 401 "Unauthorized") ∧
    (∀ ai, extractAuthKey hashKey authorization = some ai →
      ((checkPresentedKeyRateLimit rateLimitSeconds maxKeys ai.presentedKeyHash now rl).1).1
          = false →
      (admissionGates hashKey rateLimitSeconds maxKeys authorization xForwardedHost
        providers provider now rl).1 = .err 429 "Too Many Requests") ∧
    (∀ ai, extractAuthKey hashKey authorization = some ai →
      ((checkPresentedKeyRateLimit rateLimitSeconds maxKeys ai.presentedKeyHash now rl).1).1
          = true →
      (validateKeyLength ai.presentedKey).valid = false →
      (admissionGates hashKey rateLimitSeconds maxKeys authorization xForwardedHost
        providers provider now rl).1 = .err 400 "Bad Request") ∧
    (∀ ai h, extractAuthKey hashKey authorization = some ai →
      ((checkPresentedKeyRateLimit rateLimitSeconds maxKeys ai.presentedKeyHash now rl).1).1
          = true →
      (validateKeyLength ai.presentedKey).valid = true →
      xForwardedHost = some h → h ≠ "" →
      (∀ m, matchProviderByHost providers h = some m → m.name ≠ provider.name) →
      (admissionGates hashKey rateLimitSeconds maxKeys authorization xForwardedHost
        providers provider now rl).1 = .err 400 "Bad Request") := by
  refine ⟨?_, ?_, ?_, ?_⟩
  · intro hnone
    unfold admissionGates
    rw [hnone]
  · intro ai hai hden
    unfold admissionGates
    rw [hai]
    dsimp only
    rw [if_pos hden]
  · intro ai hai hallow hlen
    unfold admissionGates
    rw [hai]
    dsimp only
    rw [if_neg (by simp [hallow]), if_pos hlen]
  · intro ai h hai hallow hlen hxfh hne hmm
    unfold admissionGates
    rw [hai]
    dsimp only
    rw [if_neg (by simp [hallow]), if_neg (by simp [hlen]), hxfh]
    dsimp only
    rw [if_neg hne]
    cases hm : matchProviderByHost providers h with
    | none => rfl
    | some m =>
        dsimp only
        rw [if_pos (by simpa using hmm m hm)]

/-- Witness for C8 (amended) at a concrete input: with a valid-length
credential, an idle rate limiter, and a mismatching proxy-host header, the
gates produce the host-mismatch 400. -/
theorem C8_hostCheck_after_auth_gates_witness :
    (admissionGates (fun s => s) 1 5 (some "Bearer abcdefghijklmnop")
        (some "evil.example.com")
        [{ name := "openai", base_url_hostname := some "api.openai.com" }]
        { name := "openai", base_url_hostname := some "api.openai.com" }
        0 ⟨[]⟩).1
      = .err 400 "Bad Request" :=
  (C8_hostCheck_after_auth_gates (fun s => s) 1 5 (some "Bearer abcdefghijklmnop")
      (some "evil.example.com")
      [{ name := "openai", base_url_hostname := some "api.openai.com" }]
      { name := "openai", base_url_hostname := some "api.openai.com" }
      0 ⟨[]⟩).2.2.2
    { presentedKeyHash := "abcdefghijklmnop", presentedKey := "abcdefghijklmnop",
      authHeader := "Bearer abcdefghijklmnop" }
    "evil.example.com" (by decide) (by decide) (by decide) (by decide) (by decide)
    (by decide)
